import Mathlib

/-!
Verification of the goldbef price-pipeline service.

Shallow embedding of the aggregation, broadcast, scheduling and statistics
logic of the repository.  Prices are modelled as exact rationals, datetimes
as integer day numbers (day 0 is a Monday, matching Python weekday() = 0)
and minutes-since-day-0 where sub-day resolution matters.  Holiday tables
are passed as explicit lists of day numbers.
-/

set_option maxRecDepth 4000

/-- Python truthiness of an optional float: `None` and `0` are falsy. -/
def truthyRat (p : Option ℚ) : Bool :=
  match p with
  | none => false
  | some q => q != 0

/-- Python truthiness of a string: the empty string is falsy. -/
def truthyStr (s : String) : Bool := s != ""

/-! ## app/services/price_aggregator.py -/

/-- `PriceBuffer` from price_aggregator.py: per-key lists collected in one window. -/
structure PriceBuffer where
  prices : List ℚ
  bids : List ℚ
  asks : List ℚ
  volumes : List ℚ
  last_metadata : Option String
  last_timestamp : Option Int
deriving Repr, DecidableEq

def PriceBuffer.emptyBuf : PriceBuffer :=
  { prices := [], bids := [], asks := [], volumes := []
    last_metadata := none, last_timestamp := none }

/-- `PriceBuffer.add`: each field is appended when not `None`
    (metadata and timestamp use Python truthiness of dict/datetime,
    here modelled as presence). -/
def PriceBuffer.add (b : PriceBuffer) (price bid ask volume : Option ℚ)
    (metadata : Option String) (timestamp : Option Int) : PriceBuffer :=
  { prices := match price with | some p => b.prices ++ [p] | none => b.prices
    bids := match bid with | some p => b.bids ++ [p] | none => b.bids
    asks := match ask with | some p => b.asks ++ [p] | none => b.asks
    volumes := match volume with | some p => b.volumes ++ [p] | none => b.volumes
    last_metadata := match metadata with | some m => some m | none => b.last_metadata
    last_timestamp := match timestamp with | some t => some t | none => b.last_timestamp }

/-- The dict produced by `PriceBuffer.get_average` (timestamp always present,
    defaulting to `now`). -/
structure AvgData where
  price : Option ℚ
  bid : Option ℚ
  ask : Option ℚ
  volume : Option ℚ
  metadata : Option String
  timestamp : Int
deriving Repr, DecidableEq

/-- `PriceBuffer.get_average`: arithmetic mean of each nonempty list. -/
def PriceBuffer.get_average (b : PriceBuffer) (now : Int) : AvgData :=
  { price := if b.prices.isEmpty then none else some (b.prices.sum / b.prices.length)
    bid := if b.bids.isEmpty then none else some (b.bids.sum / b.bids.length)
    ask := if b.asks.isEmpty then none else some (b.asks.sum / b.asks.length)
    volume := if b.volumes.isEmpty then none else some (b.volumes.sum / b.volumes.length)
    metadata := b.last_metadata
    timestamp := b.last_timestamp.getD now }

/-- `PriceBuffer.has_data`: only the price list counts. -/
def PriceBuffer.has_data (b : PriceBuffer) : Bool := !b.prices.isEmpty

/-- An incoming tick dict handed to `PriceAggregator.add_price`. -/
structure TickData where
  provider : String
  asset_type : String
  price : Option ℚ
  bid : Option ℚ
  ask : Option ℚ
  volume : Option ℚ
  metadata : Option String
  timestamp : Option Int
deriving Repr, DecidableEq

/-- Insert-or-replace in an association list (Python dict assignment:
    an existing key keeps its position, a new key goes to the end). -/
def setAssoc {α β : Type} [DecidableEq α] : List (α × β) → α → β → List (α × β)
  | [], k, v => [(k, v)]
  | (k0, v0) :: rest, k, v =>
    if k0 = k then (k, v) :: rest else (k0, v0) :: setAssoc rest k v

/-- State of a `PriceAggregator`: per-key buffers plus last emitted values. -/
structure AggState where
  buffers : List ((String × String) × PriceBuffer)
  last_emitted : List ((String × String) × AvgData)
deriving Repr, DecidableEq

def AggState.init : AggState := { buffers := [], last_emitted := [] }

/-- `PriceAggregator.add_price`: drops the tick unless provider, asset_type
    and price are all truthy, then appends to the key's buffer
    (a missing key yields a fresh buffer, as with `defaultdict`). -/
def PriceAggregator.add_price (st : AggState) (data : TickData) : AggState :=
  if truthyStr data.provider && truthyStr data.asset_type && truthyRat data.price then
    let key := (data.provider, data.asset_type)
    let b := (st.buffers.lookup key).getD PriceBuffer.emptyBuf
    let b2 := b.add data.price data.bid data.ask data.volume data.metadata data.timestamp
    { st with buffers := setAssoc st.buffers key b2 }
  else st

/-- The near-duplicate suppression test of `_emit_aggregates`:
    skip when the last emitted price is truthy and the relative change
    is below 0.000001. -/
def emitSuppressed (last : Option AvgData) (avg : AvgData) : Bool :=
  match last with
  | none => false
  | some l =>
    let lastP := l.price.getD 0
    let avgP := avg.price.getD 0
    let change := |avgP - lastP|
    truthyRat l.price && decide (change / lastP < 1 / 1000000)

/-- Accumulator for one pass of `_emit_aggregates` over the buffer items. -/
structure EmitAcc where
  buffers : List ((String × String) × PriceBuffer)
  last_emitted : List ((String × String) × AvgData)
  emitted : List ((String × String) × AvgData)
deriving Repr, DecidableEq

/-- One key's handling inside `_emit_aggregates`.  `emitOk key = false`
    models the `on_aggregated` callback raising for that key; the
    `finally` block clears the buffer on every path that entered the `try`. -/
def emitStep (emitOk : String × String → Bool) (now : Int)
    (acc : EmitAcc) (kb : (String × String) × PriceBuffer) : EmitAcc :=
  let key := kb.1
  let buffer := kb.2
  if !buffer.has_data then
    { acc with buffers := acc.buffers ++ [(key, buffer)] }
  else
    let avg := buffer.get_average now
    let last := acc.last_emitted.lookup key
    if emitSuppressed last avg then
      { acc with buffers := acc.buffers ++ [(key, PriceBuffer.emptyBuf)] }
    else
      let le := setAssoc acc.last_emitted key avg
      if emitOk key then
        { buffers := acc.buffers ++ [(key, PriceBuffer.emptyBuf)]
          last_emitted := le
          emitted := acc.emitted ++ [(key, avg)] }
      else
        { buffers := acc.buffers ++ [(key, PriceBuffer.emptyBuf)]
          last_emitted := le
          emitted := acc.emitted }

/-- `PriceAggregator._emit_aggregates`: process every buffered key,
    returning the new state and the emitted snapshots. -/
def PriceAggregator.emit_aggregates (emitOk : String × String → Bool) (now : Int)
    (st : AggState) : AggState × List ((String × String) × AvgData) :=
  let acc := st.buffers.foldl (emitStep emitOk now)
    { buffers := [], last_emitted := st.last_emitted, emitted := [] }
  ({ buffers := acc.buffers, last_emitted := acc.last_emitted }, acc.emitted)

/-! ## app/services/websocket_manager.py : EODHD flush -/

/-- The averaged dict built by `_flush_eodhd_buffer` for one asset,
    or `none` when the `if not prices: continue` guard fires. -/
structure EodhdAvg where
  price : ℚ
  bid : Option ℚ
  ask : Option ℚ
  volume : Option ℚ
  timestamp : Option Int
deriving Repr, DecidableEq

/-- The price list `[d['price'] for d in data_list if d.get('price')]`. -/
def eodhdPrices (data_list : List TickData) : List ℚ :=
  (data_list.filter (fun d => truthyRat d.price)).filterMap (fun d => d.price)

def eodhdBids (data_list : List TickData) : List ℚ :=
  (data_list.filter (fun d => truthyRat d.bid)).filterMap (fun d => d.bid)

def eodhdAsks (data_list : List TickData) : List ℚ :=
  (data_list.filter (fun d => truthyRat d.ask)).filterMap (fun d => d.ask)

/-- One asset's step of `_flush_eodhd_buffer` (lines 104-119). -/
def eodhdFlushEntry (data_list : List TickData) : Option EodhdAvg :=
  let prices := eodhdPrices data_list
  let bids := eodhdBids data_list
  let asks := eodhdAsks data_list
  if prices.isEmpty then none
  else some
    { price := prices.sum / prices.length
      bid := if bids.isEmpty then none else some (bids.sum / bids.length)
      ask := if asks.isEmpty then none else some (asks.sum / asks.length)
      volume := (data_list.getLast?).bind (fun d => d.volume)
      timestamp := (data_list.getLast?).bind (fun d => d.timestamp) }

/-! ## app/services/base_ws_client.py : reconnect backoff -/

/-- One connection-loop event of `BaseWebSocketClient.connect`:
    a failed attempt (reaching `_reconnect`) or a successful connect. -/
inductive ConnEvent
  | fail
  | success
deriving Repr, DecidableEq

/-- The doubling-and-capping update of `_reconnect` (lines 193-196). -/
def backoffStep (maxDelay cur : ℚ) : ℚ := min (cur * 2) maxDelay

/-- Run the connection loop's delay bookkeeping over a trace of events,
    starting from current delay `cur`.  A failure sleeps for `cur` (the
    delay is recorded) and then applies `backoffStep`; a successful connect
    resets the current delay to `base` (connect, line 121). -/
def runReconnect (base maxDelay : ℚ) : ℚ → List ConnEvent → ℚ × List ℚ
  | cur, [] => (cur, [])
  | cur, ConnEvent.fail :: rest =>
    let r := runReconnect base maxDelay (backoffStep maxDelay cur) rest
    (r.1, cur :: r.2)
  | _, ConnEvent.success :: rest => runReconnect base maxDelay base rest

/-- The spec's backoff sequence: d1 = base, d(n+1) = min(2*dn, max).
    (`backoffSeq base maxDelay k` is d(k+1).) -/
def backoffSeq (base maxDelay : ℚ) : ℕ → ℚ
  | 0 => base
  | n + 1 => backoffStep maxDelay (backoffSeq base maxDelay n)

/-! ## app/services/websocket_manager.py + app/routers/sse.py : SSE queues -/

/-- `_broadcast_to_sse_clients` enqueue for one subscriber queue of
    capacity `K` (list head = oldest item): `put_nowait`, and on a full
    queue `get_nowait` (evict the oldest) then `put_nowait` again; if that
    also fails the item is dropped for this subscriber. -/
def sseEnqueue {α : Type} (K : ℕ) (q : List α) (x : α) : List α :=
  if q.length < K then q ++ [x]
  else
    match q with
    | [] => []
    | _ :: rest => if rest.length < K then rest ++ [x] else rest

/-- Broadcasting a sequence of items to one subscriber queue with no draining. -/
def broadcastAll {α : Type} (K : ℕ) (items : List α) : List α :=
  items.foldl (sseEnqueue K) []

/-! ## Calendar model (shared by london_fix_client.py and smbs_client.py)

Dates are integer day numbers with day 0 a Monday, so `d % 7` matches
Python's `date.weekday()`.  Holiday tables (`UK_HOLIDAYS`, `KR_HOLIDAYS`)
are static external data and enter as an explicit list parameter. -/

/-- `_is_business_day`: weekday < 5 and not in the holiday table. -/
def isBusinessDayZ (holidays : List ℤ) (d : ℤ) : Bool :=
  decide (d % 7 < 5) && !(holidays.contains d)

/-! ## app/services/london_fix_client.py -/

/-- `LondonFixClient._london_date_for_slot`: slots at hour >= 8 UTC target
    the current UTC date, earlier slots the previous UTC date. -/
def londonDateForSlot (utcDate : ℤ) (hour : ℤ) : ℤ :=
  if 8 ≤ hour then utcDate else utcDate - 1

/-- `LondonFixClient.FETCH_SLOTS`: (hour, minute) pairs, UTC. -/
def FETCH_SLOTS : List (ℤ × ℤ) := [(0, 30), (16, 30)]

/-- Absolute minute of day `d` at time `h:m` (UTC). -/
def slotTimeMin (d h m : ℤ) : ℤ := d * 1440 + h * 60 + m

/-- The candidate slots scanned by `_next_slot_wait`: for each of the next
    10 days, each fetch slot, in order. -/
def slotCandidates (nowDay : ℤ) : List (ℤ × ℤ × ℤ) :=
  (List.range 10).flatMap
    (fun off => FETCH_SLOTS.map (fun hm => (nowDay + off, hm.1, hm.2)))

/-- The filter applied to each candidate slot by `_next_slot_wait`:
    keep only future slots, after the last handled slot, whose London
    date is a business day not already fetched. -/
def slotOk (holidays fetched : List ℤ) (lastSlot : Option ℤ) (nowAbs : ℤ)
    (c : ℤ × ℤ × ℤ) : Bool :=
  let st := slotTimeMin c.1 c.2.1 c.2.2
  let ld := londonDateForSlot c.1 c.2.1
  decide (nowAbs < st) &&
  (match lastSlot with | none => true | some ls => decide (ls < st)) &&
  isBusinessDayZ holidays ld &&
  !(fetched.contains ld)

/-- `LondonFixClient._next_slot_wait`: the first acceptable slot as
    (wait in minutes, target London date); `none` models the
    `(3600, "fallback 1h", "")` fallback when no slot qualifies. -/
def nextSlotWait (holidays fetched : List ℤ) (lastSlot : Option ℤ)
    (nowDay nowAbs : ℤ) : Option (ℤ × ℤ) :=
  match (slotCandidates nowDay).find? (slotOk holidays fetched lastSlot nowAbs) with
  | some c => some (slotTimeMin c.1 c.2.1 c.2.2 - nowAbs, londonDateForSlot c.1 c.2.1)
  | none => none

/-- Whether one iteration of `LondonFixClient.start` reaches `_fetch`
    after waking at its slot: the guard
    `if london_date_iso and london_date_iso in self._fetched_london_dates`
    skips the fetch; the fallback result has a falsy (empty) date string,
    so it proceeds to fetch. -/
def slotIterationFetches (fetchedAtWake : List ℤ)
    (searchResult : Option (ℤ × ℤ)) : Bool :=
  match searchResult with
  | none => true
  | some wl => !(fetchedAtWake.contains wl.2)

/-! ## app/services/smbs_client.py -/

/-- `SMBSClient._last_business_day`: walk back at most 10 days looking for
    a business day; fall back to the original date. -/
def lastBusinessDayGo (holidays : List ℤ) (fallback : ℤ) : ℕ → ℤ → ℤ
  | 0, _ => fallback
  | n + 1, d =>
    if isBusinessDayZ holidays d then d else lastBusinessDayGo holidays fallback n (d - 1)

def lastBusinessDayZ (holidays : List ℤ) (fromDate : ℤ) : ℤ :=
  lastBusinessDayGo holidays fromDate 10 fromDate

/-- Outcome of the HTTP exchange inside `SMBSClient._fetch_rate`:
    timeout, other request error, or a response with a status code and
    the result of the `USD=...` regex parse (none when absent). -/
inductive FetchOutcome
  | timeout
  | connError
  | response (status : ℤ) (usdRate : Option ℚ)
deriving Repr, DecidableEq

/-- The SMBS cache dict: rate, business date it belongs to, update time. -/
structure SMBSCache where
  rate : Option ℚ
  date : Option ℤ
  last_updated : Option ℤ
deriving Repr, DecidableEq

/-- `SMBSClient._fetch_rate`: target date is the last business day on or
    before today; every failure path (HTTP status, timeout, request error,
    missing or non-positive parsed rate) returns False having written
    nothing; only a parsed rate > 0 updates the cache. -/
def SMBSClient.fetch_rate (holidays : List ℤ) (today now : ℤ)
    (outcome : FetchOutcome) (cache : SMBSCache) : Bool × SMBSCache :=
  let target := lastBusinessDayZ holidays today
  match outcome with
  | FetchOutcome.timeout => (false, cache)
  | FetchOutcome.connError => (false, cache)
  | FetchOutcome.response status usd =>
    if status ≠ 200 then (false, cache)
    else
      match usd with
      | none => (false, cache)
      | some rate =>
        if rate ≤ 0 then (false, cache)
        else (true, { rate := some rate, date := some target, last_updated := some now })

/-- The branch taken by one pass of the `while` loop in `SMBSClient.start`. -/
inductive SMBSAction
  | sleepUntilTomorrow
  | immediateFetch (target : ℤ)
  | waitForWindow
  | pollWindowFetch (target : ℤ)
deriving Repr, DecidableEq

/-- Branch selection of `SMBSClient.start` (lines 114-157): already fetched
    today -> sleep to tomorrow; non-business day -> fetch immediately (the
    fetch targets the last business day); before 08:00 KST -> wait for the
    poll window; otherwise poll-fetch. -/
def SMBSClient.loop_action (holidays : List ℤ) (todayFetched : Option ℤ)
    (today hour : ℤ) : SMBSAction :=
  if todayFetched = some today then SMBSAction.sleepUntilTomorrow
  else if !(isBusinessDayZ holidays today) then
    SMBSAction.immediateFetch (lastBusinessDayZ holidays today)
  else if hour < 8 then SMBSAction.waitForWindow
  else SMBSAction.pollWindowFetch (lastBusinessDayZ holidays today)

/-! ## app/database/repository.py -/

/-- A persisted price row (`PriceRecord`); `id` increases with insertion. -/
structure PriceRecord where
  id : ℤ
  provider : String
  asset_type : String
  price : ℚ
  bid : Option ℚ
  ask : Option ℚ
  volume : Option ℚ
  timestamp : ℤ
deriving Repr, DecidableEq

/-- SQL `MIN(id)` row selection over a result set (ids are unique). -/
def selectMinId (rs : List PriceRecord) : Option PriceRecord :=
  rs.foldl
    (fun acc r =>
      match acc with
      | none => some r
      | some a => some (if r.id < a.id then r else a))
    none

/-- SQL `MAX(id)` row selection over a result set (ids are unique). -/
def selectMaxId (rs : List PriceRecord) : Option PriceRecord :=
  rs.foldl
    (fun acc r =>
      match acc with
      | none => some r
      | some a => some (if a.id < r.id then r else a))
    none

/-- Query 1 of `get_reference_prices_bulk`: first record (min id) of an
    asset with timestamp >= today_start_utc. -/
def openWindowRecord (records : List PriceRecord) (asset : String)
    (todayStart : ℤ) : Option PriceRecord :=
  selectMinId (records.filter
    (fun r => r.asset_type == asset && decide (todayStart ≤ r.timestamp)))

/-- Queries 2 and 3 of `get_reference_prices_bulk`: last record (max id)
    of an asset with timestamp in [searchStart, closeTime]. -/
def closeWindowRecord (records : List PriceRecord) (asset : String)
    (searchStart closeTime : ℤ) : Option PriceRecord :=
  selectMaxId (records.filter
    (fun r => r.asset_type == asset &&
      decide (searchStart ≤ r.timestamp) && decide (r.timestamp ≤ closeTime)))

/-- The projected (asset, price) row of query 1 for one asset. -/
def openPriceRow (records : List PriceRecord) (todayStart : ℤ)
    (asset : String) : Option ℚ :=
  (openWindowRecord records asset todayStart).map (fun r => r.price)

/-- The projected (asset, price) row of query 2/3 for one asset. -/
def closePriceRow (records : List PriceRecord) (searchStart closeTime : ℤ)
    (asset : String) : Option ℚ :=
  (closeWindowRecord records asset searchStart closeTime).map (fun r => r.price)

/-- One asset's entry in the `get_reference_prices_bulk` result dict. -/
structure RefEntry where
  today_open : Option ℚ
  lse_close : Option ℚ
  nyse_close : Option ℚ
deriving Repr, DecidableEq

/-- Apply one query row `result[asset][field] = price` across the dict;
    `upd` writes the field. -/
def setRefField (upd : RefEntry → ℚ → RefEntry)
    (res : List (String × RefEntry)) (a : String) (v : ℚ) :
    List (String × RefEntry) :=
  res.map (fun kv => if kv.1 == a then (kv.1, upd kv.2 v) else kv)

/-- Apply every row of one grouped query, in order. -/
def applyRefRows (upd : RefEntry → ℚ → RefEntry) (q : String → Option ℚ)
    (assets : List String) (res : List (String × RefEntry)) :
    List (String × RefEntry) :=
  (assets.filterMap (fun b => (q b).map (fun v => (b, v)))).foldl
    (fun acc row => setRefField upd acc row.1 row.2) res

/-- `PriceRepository.get_reference_prices_bulk`: initialise every requested
    asset to all-null, then run the three independent window queries and
    write each one's rows into its own field. -/
def getReferencePricesBulk (records : List PriceRecord) (assets : List String)
    (todayStart lseSearchStart lseClose nyseSearchStart nyseClose : ℤ) :
    List (String × RefEntry) :=
  let res0 := assets.map
    (fun a => (a, ({ today_open := none, lse_close := none, nyse_close := none } : RefEntry)))
  let res1 := applyRefRows (fun e v => { e with today_open := some v })
    (openPriceRow records todayStart) assets res0
  let res2 := applyRefRows (fun e v => { e with lse_close := some v })
    (closePriceRow records lseSearchStart lseClose) assets res1
  applyRefRows (fun e v => { e with nyse_close := some v })
    (closePriceRow records nyseSearchStart nyseClose) assets res2

/-- `ORDER BY timestamp DESC LIMIT 1` for one provider and asset
    (`get_latest_by_provider_and_asset`). -/
def latestRecord (records : List PriceRecord) (provider asset : String) :
    Option PriceRecord :=
  (records.filter (fun r => r.provider == provider && r.asset_type == asset)).foldl
    (fun acc r =>
      match acc with
      | none => some r
      | some a => if a.timestamp < r.timestamp then some r else some a)
    none

/-- The provider sub-dict built by `get_latest_statistics` (bid/ask/volume
    use Python truthiness: a 0 value becomes null). -/
structure ProviderQuote where
  price : ℚ
  bid : Option ℚ
  ask : Option ℚ
  volume : Option ℚ
  timestamp : ℤ
deriving Repr, DecidableEq

def mkProviderQuote (r : PriceRecord) : ProviderQuote :=
  { price := r.price
    bid := if truthyRat r.bid then r.bid else none
    ask := if truthyRat r.ask then r.ask else none
    volume := if truthyRat r.volume then r.volume else none
    timestamp := r.timestamp }

/-- The fixed provider list scanned by `get_latest_statistics`. -/
def statsProviders : List String := ["eodhd", "twelve_data", "massive"]

/-- Python `max` on a nonempty list (junk value 0 on []). -/
def pyMax (xs : List ℚ) : ℚ :=
  match xs with
  | [] => 0
  | h :: t => t.foldl max h

/-- Python `min` on a nonempty list (junk value 0 on []). -/
def pyMin (xs : List ℚ) : ℚ :=
  match xs with
  | [] => 0
  | h :: t => t.foldl min h

/-- The statistics dict of `get_latest_statistics`. -/
structure Statistics where
  asset_type : String
  providers : List (String × ProviderQuote)
  average : Option ℚ
  max_price : Option ℚ
  min_price : Option ℚ
  spread : Option ℚ
deriving Repr, DecidableEq

/-- `PriceRepository.get_latest_statistics`: per-provider latest records;
    providers without a record are skipped entirely; the aggregate fields
    are set only when at least one provider holds data. -/
def getLatestStatistics (records : List PriceRecord) (asset : String) :
    Statistics :=
  let present := statsProviders.filterMap
    (fun p => (latestRecord records p asset).map (fun r => (p, r)))
  let prices := present.map (fun pr => pr.2.price)
  if prices.isEmpty then
    { asset_type := asset
      providers := present.map (fun pr => (pr.1, mkProviderQuote pr.2))
      average := none, max_price := none, min_price := none, spread := none }
  else
    { asset_type := asset
      providers := present.map (fun pr => (pr.1, mkProviderQuote pr.2))
      average := some (prices.sum / prices.length)
      max_price := some (pyMax prices)
      min_price := some (pyMin prices)
      spread := some (pyMax prices - pyMin prices) }

/-! ## Auxiliary predicates and sample data -/

/-- Buffer well-formedness: a buffer with no prices is entirely empty.
    Every buffer reachable through `add_price` satisfies this, because
    `add_price` only touches a buffer when the tick carries a truthy price. -/
def bufferInv (b : PriceBuffer) : Prop := b.prices = [] → b = PriceBuffer.emptyBuf

/-- All buffers of an aggregator state satisfy `bufferInv`. -/
def AggState.bufInv (st : AggState) : Prop := ∀ kb ∈ st.buffers, bufferInv kb.2

/-- No buffer of the state contains a zero price. -/
def AggState.noZeroPrices (st : AggState) : Prop :=
  ∀ kb ∈ st.buffers, (0 : ℚ) ∉ kb.2.prices

/-- A gold tick from eodhd carrying only a price (sample data). -/
def sampleTick (p : ℚ) : TickData :=
  { provider := "eodhd", asset_type := "gold", price := some p
    bid := none, ask := none, volume := none, metadata := none, timestamp := none }

/-- A persisted gold record from eodhd (sample data). -/
def sampleRecord : PriceRecord :=
  { id := 1, provider := "eodhd", asset_type := "gold", price := 100
    bid := none, ask := none, volume := none, timestamp := 0 }

/-! ## app/routers/api.py : the /reference-prices endpoint call site -/

/-- The parameter names of `PriceRepository.get_reference_prices_bulk`
    beyond `self` (repository.py lines 120-128; the signature has no
    `**kwargs`). -/
def getReferencePricesBulkParams : List String :=
  ["assets", "today_start_utc", "lse_close", "lse_search_start",
   "nyse_close", "nyse_search_start"]

/-- The keyword arguments passed to `get_reference_prices_bulk` by the
    `/reference-prices` endpoint (api.py lines 302-310), including
    `provider=provider`. -/
def referencePricesCallKwargs : List String :=
  ["assets", "today_start_utc", "lse_close", "lse_search_start",
   "nyse_close", "nyse_search_start", "provider"]

/-- Python keyword binding for a function without `**kwargs`: the call is
    accepted only when every passed keyword names a parameter; otherwise
    it raises TypeError (unexpected keyword argument). -/
def pythonKwargsAccepted (params passed : List String) : Bool :=
  passed.all (fun k => params.contains k)

/-- The endpoint body `get_reference_prices` (api.py lines 302-310) as it
    invokes the bulk query: the query result when the keyword binding is
    accepted, a TypeError otherwise. -/
def referencePricesEndpointCall (records : List PriceRecord) (assets : List String)
    (todayStart lseSearchStart lseClose nyseSearchStart nyseClose : ℤ) :
    Except String (List (String × RefEntry)) :=
  if pythonKwargsAccepted getReferencePricesBulkParams referencePricesCallKwargs then
    Except.ok (getReferencePricesBulk records assets todayStart lseSearchStart lseClose
      nyseSearchStart nyseClose)
  else
    Except.error "TypeError: unexpected keyword argument provider"

/-! ## Helper lemmas -/

theorem lookup_mem {α β : Type} [BEq α] [LawfulBEq α]
    (l : List (α × β)) (k : α) (v : β) (h : l.lookup k = some v) : (k, v) ∈ l := by
  induction l with
  | nil => simp [List.lookup] at h
  | cons hd tl ih =>
    obtain ⟨a, b⟩ := hd
    rw [List.lookup] at h
    by_cases hk : k == a
    · rw [hk] at h
      obtain rfl : b = v := by simpa using h
      obtain rfl : k = a := by simpa using hk
      exact List.mem_cons_self _ _
    · rw [Bool.not_eq_true] at hk
      rw [hk] at h
      exact List.mem_cons_of_mem _ (ih h)

theorem setAssoc_mem {α β : Type} [DecidableEq α]
    (l : List (α × β)) (k : α) (v : β) :
    ∀ kv ∈ setAssoc l k v, kv ∈ l ∨ kv = (k, v) := by
  induction l with
  | nil => simp [setAssoc]
  | cons hd tl ih =>
    obtain ⟨a, b⟩ := hd
    intro kv hkv
    rw [setAssoc] at hkv
    by_cases ha : a = k
    · rw [if_pos ha] at hkv
      rcases List.mem_cons.mp hkv with h | h
      · exact Or.inr h
      · exact Or.inl (List.mem_cons_of_mem _ h)
    · rw [if_neg ha] at hkv
      rcases List.mem_cons.mp hkv with h | h
      · exact Or.inl (h ▸ List.mem_cons_self _ _)
      · rcases ih kv h with h2 | h2
        · exact Or.inl (List.mem_cons_of_mem _ h2)
        · exact Or.inr h2

theorem truthyRat_some {p : Option ℚ} (h : truthyRat p = true) :
    ∃ q : ℚ, p = some q ∧ q ≠ 0 := by
  cases p with
  | none => simp [truthyRat] at h
  | some q =>
    refine ⟨q, rfl, ?_⟩
    simpa [truthyRat] using h

/-! ## C1 -/

/-- C1: for the ticks buffered within one aggregation window, the emitted
    snapshot price equals the arithmetic mean of the buffered prices, both
    for `PriceBuffer.get_average` (aggregator path) and for the per-asset
    entry of `_flush_eodhd_buffer` (whose mean ranges over the buffered
    ticks carrying a truthy price). -/
theorem C1_snapshot_price_is_mean :
    (∀ (b : PriceBuffer) (now : Int), b.prices ≠ [] →
      (b.get_average now).price = some (b.prices.sum / b.prices.length)) ∧
    (∀ (data_list : List TickData) (e : EodhdAvg), eodhdFlushEntry data_list = some e →
      e.price = (eodhdPrices data_list).sum / (eodhdPrices data_list).length) := by
  constructor
  · intro b now h
    simp [PriceBuffer.get_average, h]
  · intro dl e he
    unfold eodhdFlushEntry at he
    by_cases hp : (eodhdPrices dl).isEmpty
    · simp [hp] at he
    · simp only [hp, if_neg, Bool.false_eq_true, not_false_eq_true, if_false,
        Option.some.injEq] at he
      rw [← he]

/-- C1 witness: ticks 2050.0, 2050.2, 2050.4 in one window average
    to 2050.2 = 10251/5. -/
theorem C1_snapshot_price_is_mean_witness :
    ((({ prices := [2050, 10251/5, 10252/5], bids := [], asks := [], volumes := []
         last_metadata := none, last_timestamp := none } : PriceBuffer).get_average 0).price
        = some (10251/5)) ∧
    (∀ e : EodhdAvg,
      eodhdFlushEntry [sampleTick 2050, sampleTick (10251/5), sampleTick (10252/5)] = some e →
      e.price = 10251/5) := by
  constructor
  · have h := C1_snapshot_price_is_mean.1
      { prices := [2050, 10251/5, 10252/5], bids := [], asks := [], volumes := []
        last_metadata := none, last_timestamp := none } 0 (by decide)
    rw [h]
    norm_num
  · intro e he
    have h := C1_snapshot_price_is_mean.2
      [sampleTick 2050, sampleTick (10251/5), sampleTick (10252/5)] e he
    rw [h]
    simp +decide [eodhdPrices, sampleTick, truthyRat]
    norm_num

/-! ## C10 -/

theorem add_price_noZero (st : AggState) (d : TickData)
    (h : st.noZeroPrices) : (PriceAggregator.add_price st d).noZeroPrices := by
  unfold PriceAggregator.add_price
  by_cases hg : (truthyStr d.provider && truthyStr d.asset_type && truthyRat d.price) = true
  · rw [if_pos hg]
    simp only [Bool.and_eq_true] at hg
    obtain ⟨q, hq, hq0⟩ := truthyRat_some hg.2
    intro kv hkv
    rcases setAssoc_mem _ _ _ kv hkv with hold | hnew
    · exact h kv hold
    · subst hnew
      intro hz
      rw [hq] at hz
      simp only [PriceBuffer.add] at hz
      rcases List.mem_append.mp hz with hz1 | hz2
      · cases hb : (st.buffers.lookup (d.provider, d.asset_type)) with
        | none => rw [hb] at hz1; simp [PriceBuffer.emptyBuf] at hz1
        | some b0 =>
          rw [hb] at hz1
          exact h _ (lookup_mem _ _ _ hb) hz1
      · have h0q : (0 : ℚ) = q := by simpa using hz2
        exact hq0 h0q.symm
  · rw [if_neg hg]
    exact h

/-- C10 (implicit behaviour): `add_price` drops a tick whose price is
    exactly 0, or `None`, or whose provider or asset_type is the empty
    string, leaving the state untouched; consequently no reachable buffer
    ever contains a zero price. -/
theorem C10_zero_price_dropped :
    (∀ (st : AggState) (d : TickData),
      (d.price = some 0 ∨ d.price = none ∨ d.provider = "" ∨ d.asset_type = "") →
      PriceAggregator.add_price st d = st) ∧
    (∀ (ds : List TickData) (kb : (String × String) × PriceBuffer),
      kb ∈ (ds.foldl PriceAggregator.add_price AggState.init).buffers →
      (0 : ℚ) ∉ kb.2.prices) := by
  constructor
  · intro st d hd
    unfold PriceAggregator.add_price
    rcases hd with h | h | h | h <;>
      simp [truthyRat, truthyStr, h]
  · intro ds
    have main : ∀ (l : List TickData) (st : AggState), st.noZeroPrices →
        (l.foldl PriceAggregator.add_price st).noZeroPrices := by
      intro l
      induction l with
      | nil => intro st h; exact h
      | cons d rest ih =>
        intro st h
        exact ih _ (add_price_noZero st d h)
    intro kb hkb
    exact main ds AggState.init (by intro kv hkv; simp [AggState.init] at hkv) kb hkb

/-- C10 witness: a tick with price exactly 0 leaves a nonempty state
    unchanged, and 0 is absent from a reachable buffer. -/
theorem C10_zero_price_dropped_witness :
    (PriceAggregator.add_price
        (List.foldl PriceAggregator.add_price AggState.init [sampleTick 2050])
        { provider := "eodhd", asset_type := "gold", price := some 0
          bid := none, ask := none, volume := none, metadata := none, timestamp := none }
      = List.foldl PriceAggregator.add_price AggState.init [sampleTick 2050]) ∧
    ((0 : ℚ) ∉ ((("eodhd", "gold"),
        ({ prices := [2050], bids := [], asks := [], volumes := []
           last_metadata := none, last_timestamp := none } : PriceBuffer)) :
        (String × String) × PriceBuffer).2.prices) := by
  constructor
  · exact C10_zero_price_dropped.1 _ _ (Or.inl rfl)
  · apply C10_zero_price_dropped.2 [sampleTick 2050]
    simp +decide [PriceAggregator.add_price, AggState.init, sampleTick, truthyRat,
      truthyStr, setAssoc, PriceBuffer.add, PriceBuffer.emptyBuf]

/-! ## C2 -/

theorem add_price_bufInv (st : AggState) (d : TickData)
    (h : st.bufInv) : (PriceAggregator.add_price st d).bufInv := by
  unfold PriceAggregator.add_price
  by_cases hg : (truthyStr d.provider && truthyStr d.asset_type && truthyRat d.price) = true
  · rw [if_pos hg]
    simp only [Bool.and_eq_true] at hg
    obtain ⟨q, hq, _⟩ := truthyRat_some hg.2
    intro kv hkv
    rcases setAssoc_mem _ _ _ kv hkv with hold | hnew
    · exact h kv hold
    · subst hnew
      intro hz
      rw [hq] at hz
      simp only [PriceBuffer.add] at hz
      exact absurd hz (by simp)
  · rw [if_neg hg]
    exact h

theorem foldl_emitStep_clears (emitOk : String × String → Bool) (now : Int) :
    ∀ (l : List ((String × String) × PriceBuffer)) (acc : EmitAcc),
    (∀ kb ∈ acc.buffers, kb.2 = PriceBuffer.emptyBuf) →
    (∀ kb ∈ l, bufferInv kb.2) →
    ∀ kb ∈ (l.foldl (emitStep emitOk now) acc).buffers, kb.2 = PriceBuffer.emptyBuf := by
  intro l
  induction l with
  | nil => intro acc hacc _; exact hacc
  | cons hd rest ih =>
    intro acc hacc hl
    have hstep : ∀ kb ∈ (emitStep emitOk now acc hd).buffers, kb.2 = PriceBuffer.emptyBuf := by
      have hinv : bufferInv hd.2 := hl hd (List.mem_cons_self _ _)
      unfold emitStep
      by_cases hdat : (!hd.2.has_data) = true
      · rw [if_pos hdat]
        intro kb hkb
        rcases List.mem_append.mp hkb with hk | hk
        · exact hacc kb hk
        · have : kb = (hd.1, hd.2) := by simpa using hk
          rw [this]
          apply hinv
          have : hd.2.prices.isEmpty = true := by
            simpa [PriceBuffer.has_data] using hdat
          simpa [List.isEmpty_iff] using this
      · rw [if_neg hdat]
        by_cases hsup : emitSuppressed (acc.last_emitted.lookup hd.1) (hd.2.get_average now) = true
        · rw [if_pos hsup]
          intro kb hkb
          rcases List.mem_append.mp hkb with hk | hk
          · exact hacc kb hk
          · have : kb = (hd.1, PriceBuffer.emptyBuf) := by simpa using hk
            rw [this]
        · rw [if_neg hsup]
          by_cases hok : emitOk hd.1 = true
          · rw [if_pos hok]
            intro kb hkb
            rcases List.mem_append.mp hkb with hk | hk
            · exact hacc kb hk
            · have : kb = (hd.1, PriceBuffer.emptyBuf) := by simpa using hk
              rw [this]
          · rw [if_neg hok]
            intro kb hkb
            rcases List.mem_append.mp hkb with hk | hk
            · exact hacc kb hk
            · have : kb = (hd.1, PriceBuffer.emptyBuf) := by simpa using hk
              rw [this]
    exact ih (emitStep emitOk now acc hd) hstep
      (fun kb hkb => hl kb (List.mem_cons_of_mem _ hkb))

/-- C2: after a flush cycle every buffer of a state reachable through
    `add_price` is empty, whether the key was emitted, suppressed as a
    near-duplicate, or its callback failed (`emitOk` chooses arbitrarily
    per key); skipped keys were already empty. -/
theorem C2_flush_clears_every_buffer (ds : List TickData)
    (emitOk : String × String → Bool) (now : Int)
    (kb : (String × String) × PriceBuffer)
    (hmem : kb ∈ (PriceAggregator.emit_aggregates emitOk now
        (ds.foldl PriceAggregator.add_price AggState.init)).1.buffers) :
    kb.2 = PriceBuffer.emptyBuf := by
  have hinv : (ds.foldl PriceAggregator.add_price AggState.init).bufInv := by
    have main : ∀ (l : List TickData) (st : AggState), st.bufInv →
        (l.foldl PriceAggregator.add_price st).bufInv := by
      intro l
      induction l with
      | nil => intro st h; exact h
      | cons d rest ih => intro st h; exact ih _ (add_price_bufInv st d h)
    exact main ds AggState.init (by intro kv hkv; simp [AggState.init] at hkv)
  unfold PriceAggregator.emit_aggregates at hmem
  exact foldl_emitStep_clears emitOk now _ _ (by simp) hinv kb hmem

/-- C2 witness: one buffered gold tick, a flush with a succeeding callback;
    the surviving buffer entry is empty. -/
theorem C2_flush_clears_every_buffer_witness :
    ((("eodhd", "gold"), PriceBuffer.emptyBuf) :
        (String × String) × PriceBuffer).2 = PriceBuffer.emptyBuf := by
  apply C2_flush_clears_every_buffer [sampleTick 2050] (fun _ => true) 0
  simp +decide [PriceAggregator.emit_aggregates, PriceAggregator.add_price,
    AggState.init, sampleTick, truthyRat, truthyStr, setAssoc, PriceBuffer.add,
    PriceBuffer.emptyBuf, emitStep, PriceBuffer.has_data, emitSuppressed]

/-! ## C3 -/

theorem runReconnect_append (base maxD : ℚ) :
    ∀ (l1 l2 : List ConnEvent) (cur : ℚ),
    runReconnect base maxD cur (l1 ++ l2)
      = ((runReconnect base maxD (runReconnect base maxD cur l1).1 l2).1,
         (runReconnect base maxD cur l1).2
           ++ (runReconnect base maxD (runReconnect base maxD cur l1).1 l2).2) := by
  intro l1
  induction l1 with
  | nil => intro l2 cur; simp [runReconnect]
  | cons e rest ih =>
    intro l2 cur
    cases e with
    | fail => simp [runReconnect, ih]
    | success => simp [runReconnect, ih]

theorem runReconnect_replicate_fail (base maxD : ℚ) :
    ∀ (n : ℕ) (cur : ℚ),
    runReconnect base maxD cur (List.replicate n ConnEvent.fail)
      = ((backoffStep maxD)^[n] cur,
         (List.range n).map (fun k => (backoffStep maxD)^[k] cur)) := by
  intro n
  induction n with
  | zero => intro cur; simp [runReconnect]
  | succ m ih =>
    intro cur
    simp only [List.replicate_succ, runReconnect, ih (backoffStep maxD cur)]
    rw [List.range_succ_eq_map, List.map_cons, List.map_map]
    have hc : ((fun k => (backoffStep maxD)^[k] cur) ∘ Nat.succ)
        = fun k => (backoffStep maxD)^[k] (backoffStep maxD cur) := by
      funext k
      exact Function.iterate_succ_apply (backoffStep maxD) k cur
    rw [hc]
    rw [Prod.mk.injEq]
    exact ⟨(Function.iterate_succ_apply (backoffStep maxD) m cur).symm, rfl⟩

theorem backoffSeq_eq_iterate (base maxD : ℚ) :
    ∀ n : ℕ, backoffSeq base maxD n = (backoffStep maxD)^[n] base := by
  intro n
  induction n with
  | zero => rfl
  | succ m ih => rw [backoffSeq, ih, Function.iterate_succ_apply']

theorem runReconnect_final_success (base maxD : ℚ) (l : List ConnEvent) (cur : ℚ) :
    (runReconnect base maxD cur (l ++ [ConnEvent.success])).1 = base := by
  rw [runReconnect_append]
  simp [runReconnect]

/-- C3: from a fresh client (and after every successful connect) the
    delays used across consecutive failed attempts follow
    d1 = base, d(n+1) = min(2*dn, max). -/
theorem C3_reconnect_backoff (base maxD cur : ℚ) (pre : List ConnEvent) (n : ℕ) :
    ((runReconnect base maxD base (List.replicate n ConnEvent.fail)).2
        = (List.range n).map (backoffSeq base maxD)) ∧
    ((runReconnect base maxD cur
          (pre ++ ConnEvent.success :: List.replicate n ConnEvent.fail)).2
        = (runReconnect base maxD cur (pre ++ [ConnEvent.success])).2
          ++ (List.range n).map (backoffSeq base maxD)) := by
  have hrep : (runReconnect base maxD base (List.replicate n ConnEvent.fail)).2
      = (List.range n).map (backoffSeq base maxD) := by
    rw [runReconnect_replicate_fail]
    exact List.map_congr_left (fun k _ => (backoffSeq_eq_iterate base maxD k).symm)
  refine ⟨hrep, ?_⟩
  have hsplit : pre ++ ConnEvent.success :: List.replicate n ConnEvent.fail
      = (pre ++ [ConnEvent.success]) ++ List.replicate n ConnEvent.fail := by
    simp
  rw [hsplit, runReconnect_append, runReconnect_final_success, hrep]

/-! ## C4 -/

theorem broadcastAll_under_capacity {α : Type} (K : ℕ) :
    ∀ (items : List α) (q : List α), q.length + items.length ≤ K →
    items.foldl (sseEnqueue K) q = q ++ items := by
  intro items
  induction items with
  | nil => intro q _; simp
  | cons x rest ih =>
    intro q hlen
    have hq : q.length < K := by
      simp only [List.length_cons] at hlen
      omega
    rw [List.foldl_cons]
    rw [show sseEnqueue K q x = q ++ [x] from by simp only [sseEnqueue, if_pos hq]]
    rw [ih (q ++ [x]) (by simp only [List.length_append, List.length_singleton]; simp at hlen ⊢; omega)]
    simp

/-- C4: broadcasting K+1 items into an empty subscriber queue of
    capacity K > 0 with no draining leaves exactly the last K items in
    arrival order: only the oldest item is evicted. -/
theorem C4_drop_oldest {α : Type} (K : ℕ) (items : List α)
    (hK : 0 < K) (hlen : items.length = K + 1) :
    broadcastAll K items = items.drop 1 := by
  have hne : items ≠ [] := by
    intro h
    rw [h] at hlen
    simp at hlen
  obtain ⟨front, lastx, rfl⟩ : ∃ front lastx, items = front ++ [lastx] := by
    rcases List.eq_nil_or_concat items with h | ⟨front, lastx, h⟩
    · exact absurd h hne
    · rw [List.concat_eq_append] at h
      exact ⟨front, lastx, h⟩
  have hfront : front.length = K := by
    simp only [List.length_append, List.length_singleton] at hlen
    omega
  unfold broadcastAll
  rw [List.foldl_append]
  rw [broadcastAll_under_capacity K front [] (by simp [hfront])]
  simp only [List.nil_append, List.foldl_cons, List.foldl_nil]
  cases front with
  | nil =>
    exfalso
    rw [← hfront] at hK
    simp at hK
  | cons h0 rest =>
    simp only [sseEnqueue, if_neg (show ¬((h0 :: rest).length < K) from by simp [hfront])]
    have hrest : rest.length < K := by
      simp only [List.length_cons] at hfront
      omega
    simp only [if_pos hrest]
    simp

/-- C4 witness: capacity 2, broadcasts A, B, C: the queue holds exactly
    [B, C]. -/
theorem C4_drop_oldest_witness :
    broadcastAll 2 ["A", "B", "C"] = ["B", "C"] := by
  have h := C4_drop_oldest 2 ["A", "B", "C"] (by decide) (by decide)
  simpa using h

/-! ## C5 -/

/-- C5: whenever the slot search returns a slot, its target London date is
    a business day and is not in the satisfied set; and a slot whose target
    date is found satisfied at wake-up time performs no fetch. -/
theorem C5_slot_search_invariant (holidays fetched : List ℤ)
    (lastSlot : Option ℤ) (nowDay nowAbs w ld : ℤ)
    (h : nextSlotWait holidays fetched lastSlot nowDay nowAbs = some (w, ld)) :
    isBusinessDayZ holidays ld = true ∧ fetched.contains ld = false ∧
    (∀ fetchedAtWake : List ℤ, fetchedAtWake.contains ld = true →
      slotIterationFetches fetchedAtWake (some (w, ld)) = false) := by
  unfold nextSlotWait at h
  cases hf : (slotCandidates nowDay).find? (slotOk holidays fetched lastSlot nowAbs) with
  | none => rw [hf] at h; simp at h
  | some c =>
    rw [hf] at h
    have hpred := List.find?_some hf
    unfold slotOk at hpred
    simp only [Bool.and_eq_true] at hpred
    have hld : londonDateForSlot c.1 c.2.1 = ld := by
      have := (Option.some.injEq _ _).mp h
      exact congrArg Prod.snd this
    refine ⟨?_, ?_, ?_⟩
    · rw [← hld]
      exact hpred.1.2
    · rw [← hld]
      simpa using hpred.2
    · intro f2 hf2
      have hmem : ld ∈ f2 := by simpa using hf2
      simp [slotIterationFetches, hmem]

/-- C5 witness: from Monday midnight (day 0) with nothing fetched, the
    search returns the 16:30 slot of day 0 targeting London date 0, a
    business day not yet fetched; marking 0 fetched suppresses the fetch. -/
theorem C5_slot_search_invariant_witness :
    isBusinessDayZ [] (0 : ℤ) = true ∧ List.contains ([] : List ℤ) (0 : ℤ) = false ∧
    slotIterationFetches [(0 : ℤ)] (some ((990 : ℤ), (0 : ℤ))) = false := by
  have h := C5_slot_search_invariant [] [] none 0 0 990 0 (by decide)
  exact ⟨h.1, h.2.1, h.2.2 [0] (by decide)⟩

/-! ## C6 -/

/-- C6 counterexample: the cutover mapping applied to the 00:30 UTC slot
    of a Monday (day 7) yields the preceding Sunday (day 6), which is not
    a business date at all (even with no holidays), while the previous
    business date is Friday (day 4).  So the mapping does not target the
    previous business date. -/
theorem C6_cutover_counterexample :
    londonDateForSlot 7 0 = 6 ∧ isBusinessDayZ [] 6 = false ∧
    lastBusinessDayZ [] 6 = 4 ∧ (6 : ℤ) ≠ 4 := by
  refine ⟨by decide, by decide, by decide, by decide⟩

/-- C6 (amended): a slot whose hour is before the cutover hour (8 UTC)
    targets the previous calendar date - which may be a non-business
    date, left to the slot search to discard - and a slot at or after
    the cutover hour targets the current calendar date. -/
theorem C6_cutover_rule (d h : ℤ) :
    (h < 8 → londonDateForSlot d h = d - 1) ∧
    (8 ≤ h → londonDateForSlot d h = d) := by
  constructor
  · intro hh
    rw [londonDateForSlot, if_neg (by omega)]
  · intro hh
    rw [londonDateForSlot, if_pos hh]

/-- C6 witness: the 00:30 UTC slot of day 7 targets day 6; the 16:30 UTC
    slot of day 7 targets day 7. -/
theorem C6_cutover_rule_witness :
    londonDateForSlot 7 0 = 7 - 1 ∧ londonDateForSlot 7 16 = 7 :=
  ⟨(C6_cutover_rule 7 0).1 (by decide), (C6_cutover_rule 7 16).2 (by decide)⟩

/-! ## C8 -/

/-- C8: on a non-business day with today's value not yet fetched, the SMBS
    loop immediately fetches, targeting the last business day; and every
    failing fetch (timeout, request error, bad HTTP status, missing or
    non-positive parsed rate) leaves the cached rate, date and
    last_updated fields exactly as they were. -/
theorem C8_smbs_nonbusiness_and_failure (holidays : List ℤ)
    (todayFetched : Option ℤ) (today hour : ℤ)
    (h1 : todayFetched ≠ some today)
    (h2 : isBusinessDayZ holidays today = false) :
    SMBSClient.loop_action holidays todayFetched today hour
        = SMBSAction.immediateFetch (lastBusinessDayZ holidays today) ∧
    (∀ (now : ℤ) (outcome : FetchOutcome) (cache res : SMBSCache),
      SMBSClient.fetch_rate holidays today now outcome cache = (false, res) →
      res = cache) := by
  constructor
  · unfold SMBSClient.loop_action
    rw [if_neg h1, if_pos (by simp [h2])]
  · intro now outcome cache res hf
    cases outcome with
    | timeout =>
      simp only [SMBSClient.fetch_rate, Prod.mk.injEq] at hf
      exact hf.2.symm
    | connError =>
      simp only [SMBSClient.fetch_rate, Prod.mk.injEq] at hf
      exact hf.2.symm
    | response status usd =>
      simp only [SMBSClient.fetch_rate] at hf
      by_cases hs : status ≠ 200
      · rw [if_pos hs] at hf
        simp only [Prod.mk.injEq] at hf
        exact hf.2.symm
      · rw [if_neg hs] at hf
        cases usd with
        | none =>
          simp only [Prod.mk.injEq] at hf
          exact hf.2.symm
        | some rate =>
          by_cases hr : rate ≤ 0
          · simp only [if_pos hr, Prod.mk.injEq] at hf
            exact hf.2.symm
          · simp only [if_neg hr, Prod.mk.injEq] at hf
            exact absurd hf.1 (by simp)

/-- C8 witness: Saturday (day 5), nothing fetched: the loop fetches
    immediately targeting Friday (day 4); a timeout leaves the cache
    of 1400 KRW / day 4 untouched. -/
theorem C8_smbs_nonbusiness_and_failure_witness :
    SMBSClient.loop_action [] none 5 9 = SMBSAction.immediateFetch 4 ∧
    (SMBSClient.fetch_rate [] 5 0 FetchOutcome.timeout
        { rate := some 1400, date := some 4, last_updated := some 0 }).2
      = { rate := some 1400, date := some 4, last_updated := some 0 } := by
  have h := C8_smbs_nonbusiness_and_failure [] none 5 9 (by decide) (by decide)
  constructor
  · rw [h.1]
    decide
  · exact h.2 0 FetchOutcome.timeout
      { rate := some 1400, date := some 4, last_updated := some 0 } _ rfl

/-! ## C9 -/

theorem filterMap_pair_snd {γ : Type} (l : List String)
    (f : String → Option PriceRecord) (g : PriceRecord → γ) :
    (l.filterMap (fun p => (f p).map (fun r => (p, r)))).map (fun x => g x.2)
      = l.filterMap (fun p => (f p).map g) := by
  induction l with
  | nil => rfl
  | cons hd tl ih =>
    cases hf : f hd with
    | none => simp [hf, ih]
    | some r => simp [hf, ih]

theorem lookup_filterMap_pair (l : List String)
    (f : String → Option PriceRecord) (g : PriceRecord → ProviderQuote) (p : String) :
    (l.filterMap (fun q => (f q).map (fun r => (q, g r)))).lookup p ≠ none
      ↔ p ∈ l ∧ f p ≠ none := by
  induction l with
  | nil => simp
  | cons hd tl ih =>
    cases hf : f hd with
    | none =>
      by_cases hp : p = hd
      · subst hp
        simp [List.filterMap_cons, hf, ih]
      · simp [List.filterMap_cons, hf, ih, hp]
    | some r =>
      by_cases hp : p = hd
      · subst hp
        simp [List.filterMap_cons, hf, List.lookup]
      · have hb : (p == hd) = false := by simp [hp]
        simp [List.filterMap_cons, hf, List.lookup, hb, hp, ih]

theorem filterMap_pair_mapSnd (l : List String)
    (f : String → Option PriceRecord) (g : PriceRecord → ProviderQuote) :
    (l.filterMap (fun p => (f p).map (fun r => (p, r)))).map
        (fun x => (x.1, g x.2))
      = l.filterMap (fun p => (f p).map (fun r => (p, g r))) := by
  induction l with
  | nil => rfl
  | cons hd tl ih =>
    cases hf : f hd with
    | none => simp [hf, ih]
    | some r => simp [hf, ih]

/-- C9: the statistics dict holds an entry exactly for the scanned
    providers that currently have a record for the asset; with no data the
    four aggregate fields are null; otherwise average, min, max and
    spread = max - min are computed only over the present providers'
    latest prices. -/
theorem C9_statistics_over_present_providers (records : List PriceRecord)
    (asset : String) :
    (∀ p : String,
      (getLatestStatistics records asset).providers.lookup p ≠ none
        ↔ p ∈ statsProviders ∧ latestRecord records p asset ≠ none) ∧
    (statsProviders.filterMap
        (fun p => (latestRecord records p asset).map (fun r => r.price)) = [] →
      (getLatestStatistics records asset).average = none ∧
      (getLatestStatistics records asset).max_price = none ∧
      (getLatestStatistics records asset).min_price = none ∧
      (getLatestStatistics records asset).spread = none) ∧
    (∀ pp : List ℚ,
      pp = statsProviders.filterMap
        (fun p => (latestRecord records p asset).map (fun r => r.price)) →
      pp ≠ [] →
      (getLatestStatistics records asset).average = some (pp.sum / pp.length) ∧
      (getLatestStatistics records asset).max_price = some (pyMax pp) ∧
      (getLatestStatistics records asset).min_price = some (pyMin pp) ∧
      (getLatestStatistics records asset).spread = some (pyMax pp - pyMin pp)) := by
  have hpp := filterMap_pair_snd statsProviders
    (fun p => latestRecord records p asset) (fun r => r.price)
  have hprov := filterMap_pair_mapSnd statsProviders
    (fun p => latestRecord records p asset) mkProviderQuote
  refine ⟨?_, ?_, ?_⟩
  · intro p
    have hfield : (getLatestStatistics records asset).providers
        = statsProviders.filterMap
            (fun q => (latestRecord records q asset).map (fun r => (q, mkProviderQuote r))) := by
      simp only [getLatestStatistics]
      split
      · exact hprov
      · exact hprov
    rw [hfield]
    exact lookup_filterMap_pair _ _ _ p
  · intro hemp
    simp only [getLatestStatistics, hpp, hemp, List.isEmpty_nil, if_true]
    simp
  · intro pp hdef hne
    have hemp : (statsProviders.filterMap
        (fun p => (latestRecord records p asset).map (fun r => r.price))).isEmpty = false := by
      rw [← hdef]
      simpa using hne
    simp only [getLatestStatistics, hpp, hemp, Bool.false_eq_true, if_false]
    rw [← hdef]
    simp

/-- C9 witness: with a single eodhd gold record at price 100, eodhd is
    present, the average is 100 and the spread is 0; the other providers
    are absent. -/
theorem C9_statistics_over_present_providers_witness :
    ((getLatestStatistics [sampleRecord] "gold").providers.lookup "eodhd" ≠ none) ∧
    (getLatestStatistics [sampleRecord] "gold").average = some 100 ∧
    (getLatestStatistics [sampleRecord] "gold").spread = some 0 := by
  have h := C9_statistics_over_present_providers [sampleRecord] "gold"
  refine ⟨?_, ?_, ?_⟩
  · exact (h.1 "eodhd").mpr ⟨by decide, by decide⟩
  · have h2 := (h.2.2 [100] (by decide) (by decide)).1
    simpa using h2
  · have h3 := (h.2.2 [100] (by decide) (by decide)).2.2.2
    simpa [pyMax, pyMin] using h3

/-! ## C7 -/

theorem setRefField_not_mem (upd : RefEntry → ℚ → RefEntry)
    (l : List (String × RefEntry)) (a : String) (v : ℚ)
    (h : ∀ kv ∈ l, kv.1 ≠ a) : setRefField upd l a v = l := by
  induction l with
  | nil => rfl
  | cons hd tl ih =>
    have hhd : (hd.1 == a) = false := by
      simp [h hd (List.mem_cons_self _ _)]
    simp only [setRefField, List.map_cons, hhd, Bool.false_eq_true, if_false]
    have htl := ih (fun kv hkv => h kv (List.mem_cons_of_mem _ hkv))
    simp only [setRefField] at htl
    rw [htl]

theorem foldl_setRefField_cons (upd : RefEntry → ℚ → RefEntry) :
    ∀ (rows : List (String × ℚ)) (hd : String × RefEntry)
      (tl : List (String × RefEntry)),
    (∀ row ∈ rows, row.1 ≠ hd.1) →
    rows.foldl (fun acc row => setRefField upd acc row.1 row.2) (hd :: tl)
      = hd :: rows.foldl (fun acc row => setRefField upd acc row.1 row.2) tl := by
  intro rows
  induction rows with
  | nil => intro hd tl _; rfl
  | cons r rest ih =>
    intro hd tl h
    have hhd : (hd.1 == r.1) = false := by
      have := h r (List.mem_cons_self _ _)
      simp [Ne.symm this]
    rw [List.foldl_cons, List.foldl_cons]
    rw [show setRefField upd (hd :: tl) r.1 r.2
        = hd :: setRefField upd tl r.1 r.2 from by
      simp only [setRefField, List.map_cons, hhd, Bool.false_eq_true, if_false]]
    exact ih hd (setRefField upd tl r.1 r.2)
      (fun row hrow => h row (List.mem_cons_of_mem _ hrow))

theorem refRows_keys (q : String → Option ℚ) (assets : List String) :
    ∀ row ∈ assets.filterMap (fun b => (q b).map (fun v => (b, v))), row.1 ∈ assets := by
  intro row hrow
  obtain ⟨b, hb, hmap⟩ := List.mem_filterMap.mp hrow
  cases hq : q b with
  | none => rw [hq] at hmap; simp at hmap
  | some v =>
    rw [hq] at hmap
    simp only [Option.map_some', Option.some.injEq] at hmap
    rw [← hmap]
    exact hb

theorem applyRefRows_eq_map (upd : RefEntry → ℚ → RefEntry) (q : String → Option ℚ) :
    ∀ (assets : List String) (g : String → RefEntry), assets.Nodup →
    applyRefRows upd q assets (assets.map (fun b => (b, g b)))
      = assets.map (fun b =>
          (b, match q b with | some v => upd (g b) v | none => g b)) := by
  intro assets
  induction assets with
  | nil => intro g _; rfl
  | cons a rest ih =>
    intro g hnd
    have hanot : a ∉ rest := (List.nodup_cons.mp hnd).1
    have hrest : rest.Nodup := (List.nodup_cons.mp hnd).2
    unfold applyRefRows
    rw [List.filterMap_cons]
    cases hq : q a with
    | none =>
      simp only [Option.map_none']
      rw [List.map_cons]
      rw [foldl_setRefField_cons upd _ (a, g a) _ ?hkeys]
      case hkeys =>
        intro row hrow
        have := refRows_keys q rest row hrow
        intro hcontra
        rw [hcontra] at this
        exact hanot this
      have := ih g hrest
      unfold applyRefRows at this
      rw [this]
      rw [List.map_cons, hq]
    | some v =>
      simp only [Option.map_some']
      rw [List.map_cons, List.foldl_cons]
      have htl : setRefField upd (rest.map (fun b => (b, g b))) a v
          = rest.map (fun b => (b, g b)) := by
        apply setRefField_not_mem
        intro kv hkv
        obtain ⟨b, hb, hkv2⟩ := List.mem_map.mp hkv
        rw [← hkv2]
        intro hcontra
        simp only at hcontra
        rw [hcontra] at hb
        exact hanot hb
      rw [show setRefField upd ((a, g a) :: rest.map (fun b => (b, g b))) a v
          = (a, upd (g a) v) :: rest.map (fun b => (b, g b)) from by
        have hstep : setRefField upd ((a, g a) :: rest.map (fun b => (b, g b))) a v
            = (a, upd (g a) v) :: setRefField upd (rest.map (fun b => (b, g b))) a v := by
          simp [setRefField]
        rw [hstep, htl]]
      rw [foldl_setRefField_cons upd _ (a, upd (g a) v) _ ?hkeys2]
      case hkeys2 =>
        intro row hrow
        have := refRows_keys q rest row hrow
        intro hcontra
        rw [hcontra] at this
        exact hanot this
      have := ih g hrest
      unfold applyRefRows at this
      rw [this]
      rw [List.map_cons, hq]

theorem lookup_map_self (E : String → RefEntry) :
    ∀ (l : List String) (a : String), a ∈ l →
    (l.map (fun b => (b, E b))).lookup a = some (E a) := by
  intro l
  induction l with
  | nil => intro a ha; simp at ha
  | cons hd tl ih =>
    intro a ha
    by_cases hp : a = hd
    · subst hp
      simp [List.lookup]
    · have hb : (a == hd) = false := by simp [hp]
      rcases List.mem_cons.mp ha with h | h
      · exact absurd h hp
      · simp only [List.map_cons, List.lookup, hb]
        exact ih a h

theorem foldl_opt_keep_some (f : PriceRecord → PriceRecord → PriceRecord) :
    ∀ (t : List PriceRecord) (a : PriceRecord),
    t.foldl (fun acc r =>
      match acc with
      | none => some r
      | some x => some (f x r)) (some a) ≠ none := by
  intro t
  induction t with
  | nil => intro a; simp
  | cons r rest ih => intro a; exact ih (f a r)

theorem selectMinId_none_iff (rs : List PriceRecord) :
    selectMinId rs = none ↔ rs = [] := by
  cases rs with
  | nil => simp [selectMinId]
  | cons r t =>
    constructor
    · intro h
      exact absurd h (foldl_opt_keep_some (fun x r => if r.id < x.id then r else x) t r)
    · intro h
      exact absurd h (List.cons_ne_nil _ _)

theorem selectMaxId_none_iff (rs : List PriceRecord) :
    selectMaxId rs = none ↔ rs = [] := by
  cases rs with
  | nil => simp [selectMaxId]
  | cons r t =>
    constructor
    · intro h
      exact absurd h (foldl_opt_keep_some (fun x r => if x.id < r.id then r else x) t r)
    · intro h
      exact absurd h (List.cons_ne_nil _ _)

/-- The repository method in isolation (the behaviour the endpoint
    intends to expose): the bulk reference-price query returns an entry
    for every requested asset; each of the three fields equals its own
    independent time-window query; a window with no record for an asset
    yields a null field (the window queries return none exactly when no
    record matches) while the other fields and assets are unaffected. -/
theorem C7_reference_prices_bulk (records : List PriceRecord) (assets : List String)
    (todayStart lseSearchStart lseClose nyseSearchStart nyseClose : ℤ)
    (hnd : assets.Nodup) :
    (∀ a ∈ assets,
      (getReferencePricesBulk records assets todayStart lseSearchStart lseClose
          nyseSearchStart nyseClose).lookup a
        = some { today_open := openPriceRow records todayStart a
                 lse_close := closePriceRow records lseSearchStart lseClose a
                 nyse_close := closePriceRow records nyseSearchStart nyseClose a }) ∧
    (∀ rs : List PriceRecord,
      (selectMinId rs = none ↔ rs = []) ∧ (selectMaxId rs = none ↔ rs = [])) := by
  constructor
  · intro a ha
    simp only [getReferencePricesBulk]
    rw [applyRefRows_eq_map _ _ _ _ hnd]
    rw [applyRefRows_eq_map _ _ _ _ hnd]
    rw [applyRefRows_eq_map _ _ _ _ hnd]
    rw [lookup_map_self _ assets a ha]
    cases hq1 : openPriceRow records todayStart a with
    | none =>
      cases hq2 : closePriceRow records lseSearchStart lseClose a with
      | none =>
        cases hq3 : closePriceRow records nyseSearchStart nyseClose a with
        | none => simp [hq1, hq2, hq3]
        | some v3 => simp [hq1, hq2, hq3]
      | some v2 =>
        cases hq3 : closePriceRow records nyseSearchStart nyseClose a with
        | none => simp [hq1, hq2, hq3]
        | some v3 => simp [hq1, hq2, hq3]
    | some v1 =>
      cases hq2 : closePriceRow records lseSearchStart lseClose a with
      | none =>
        cases hq3 : closePriceRow records nyseSearchStart nyseClose a with
        | none => simp [hq1, hq2, hq3]
        | some v3 => simp [hq1, hq2, hq3]
      | some v2 =>
        cases hq3 : closePriceRow records nyseSearchStart nyseClose a with
        | none => simp [hq1, hq2, hq3]
        | some v3 => simp [hq1, hq2, hq3]
  · intro rs
    exact ⟨selectMinId_none_iff rs, selectMaxId_none_iff rs⟩

/-- Concrete instance of the repository-level behaviour: one gold record
    at timestamp 0; the session-open and NYSE windows contain it, the LSE
    window does not, so its field is null while the query still returns
    the full entry. -/
theorem C7_reference_prices_bulk_witness :
    (getReferencePricesBulk [sampleRecord] ["gold"] 0 (-10) (-5) 0 10).lookup "gold"
      = some { today_open := some 100, lse_close := none, nyse_close := some 100 } := by
  have h := (C7_reference_prices_bulk [sampleRecord] ["gold"] 0 (-10) (-5) 0 10
    (by decide)).1 "gold" (by decide)
  rw [h]
  decide

/-- C7 (code bug): every invocation of the `/reference-prices` endpoint
    fails: api.py line 309 passes the keyword `provider` to
    `get_reference_prices_bulk`, whose signature (repository.py lines
    120-128) has no such parameter and no `**kwargs`, so Python raises
    TypeError before any window query runs, for every input.  The claim
    says the call as a whole still succeeds - the repository method in
    isolation does behave as claimed (`C7_reference_prices_bulk`), so the
    call site, not the claim, is the slip. -/
theorem C7_endpoint_call_raises (records : List PriceRecord) (assets : List String)
    (todayStart lseSearchStart lseClose nyseSearchStart nyseClose : ℤ) :
    referencePricesEndpointCall records assets todayStart lseSearchStart lseClose
        nyseSearchStart nyseClose
      = Except.error "TypeError: unexpected keyword argument provider" := by
  rfl
